import Mathlib

/-!
# mem_pool.c : a shallow embedding

The development follows `src/mem_pool.c` statement by statement.

Conventions of the embedding

* A pointer to a node is `Option Nat`: `none` is `NULL`, `some i` is
  `&node_heap[i]`.  A pointer to a pool manager is `Option Nat` as well, an
  index into the table of manager objects of the registry state.
* A `char *` into a buffer is a natural number, `0` being `NULL`.  The registry
  state records which buffers are live (`bufs`): `free` of an address that is
  neither `NULL` nor live has no defined result.
* A pointer to an array that `calloc` gave (`node_heap`, `gap_ix`) is a
  `Block`: `NULL`, a block that `free` has released, or a live array with its
  elements.
* Every function returns an `Option`.  The value `none` means that the C
  execution has no defined result: it reads or writes through `NULL`, through
  a released object or outside an array, or it never leaves a loop.
* `unsigned` and `size_t` arithmetic wraps; the two widths are parameters
  (`Abi`), since they depend on the platform.
* `mem_pool.h` is not part of the source tree.  The enumerations and `pool_t`
  are declared with the members that `mem_pool.c` uses.
* `_mem_resize_pool_store`, `_mem_resize_gap_ix`, `_mem_sort_gap_ix` and
  `_mem_invalidate_gap_ix` are called by no function of `mem_pool.c`.
-/

namespace MemPool

/-- Widths, in bits, of `unsigned` and of `size_t`. -/
structure Abi where
  unsigned_bits : Nat
  size_t_bits : Nat
deriving DecidableEq, Repr

/-- Modulus of `unsigned` arithmetic. -/
def Abi.umod (abi : Abi) : Nat := 2 ^ abi.unsigned_bits

/-- Modulus of `size_t` arithmetic. -/
def Abi.smod (abi : Abi) : Nat := 2 ^ abi.size_t_bits

/-- The usual 64-bit target: 32-bit `unsigned`, 64-bit `size_t`. -/
def lp64 : Abi := ⟨32, 64⟩

/-- Status codes of `mem_pool.h`, as named in `mem_pool.c`. -/
inductive alloc_status where
  | ALLOC_OK
  | ALLOC_FAIL
  | ALLOC_CALLED_AGAIN
  | ALLOC_NOT_FREED
deriving DecidableEq, Repr

/-- Placement policies of `mem_pool.h`, as named in `mem_pool.c`. -/
inductive alloc_policy where
  | FIRST_FIT
  | BEST_FIT
deriving DecidableEq, Repr

/-- The record `alloc_t`: start address and size of a segment. -/
structure alloc_t where
  mem : Nat
  size : Nat
deriving DecidableEq, Repr

/-- The record `node_t`. -/
structure node_t where
  alloc_record : alloc_t
  used : Nat
  allocated : Nat
  next : Option Nat
  prev : Option Nat
deriving DecidableEq, Repr

/-- The record `gap_t`. -/
structure gap_t where
  size : Nat
  node : Option Nat
deriving DecidableEq, Repr

/-- A pointer to an array obtained from `calloc`: `NULL`, a block that `free`
has released (the pointer dangles), or a live array with its elements. -/
inductive Block (α : Type) where
  | null
  | released
  | live (xs : List α)
deriving DecidableEq, Repr

/-- The elements that can be read and written through the pointer. -/
def Block.elems {α : Type} : Block α → Option (List α)
  | Block.live xs => some xs
  | _ => none

/-- The call `free (p)`: nothing happens for `NULL`, a live block is released,
and a second `free` of a released block has no defined result. -/
def Block.free {α : Type} : Block α → Option (Block α)
  | Block.null => some Block.null
  | Block.released => none
  | Block.live _ => some Block.released

/-- The call `free (p)` on a buffer, `bufs` being the live buffers. -/
def free_buf (bufs : List Nat) (p : Nat) : Option (List Nat) :=
  if p = 0 then some bufs
  else if p ∈ bufs then some (bufs.erase p)
  else none

/-- The record `pool_t` of `mem_pool.h`, with the members `mem_pool.c` uses. -/
structure pool_t where
  mem : Nat
  policy : alloc_policy
  total_size : Nat
  alloc_size : Nat
  num_allocs : Nat
  num_gaps : Nat
deriving DecidableEq, Repr

/-- The record `pool_mgr_t`.  `node_heap` and `gap_ix` point to arrays; the
length of a live array is the number of elements that were allocated, which
the fields `total_nodes` and `gap_ix_capacity` need not equal. -/
structure pool_mgr_t where
  pool : pool_t
  node_heap : Block node_t
  total_nodes : Nat
  used_nodes : Nat
  gap_ix : Block gap_t
  gap_ix_capacity : Nat
deriving DecidableEq, Repr

/-- A node as `calloc` returns it. -/
def node_zero : node_t := ⟨⟨0, 0⟩, 0, 0, none, none⟩

/-- A gap entry as `calloc` returns it. -/
def gap_zero : gap_t := ⟨0, none⟩

def MEM_POOL_STORE_INIT_CAPACITY : Nat := 20
def MEM_POOL_STORE_EXPAND_FACTOR : Nat := 2

/-- Reads `*p` in the node heap of `m`. -/
def load (m : pool_mgr_t) (p : Option Nat) : Option node_t := do
  let heap ← m.node_heap.elems
  let i ← p
  heap[i]?

/-- Writes the node `f (*p)` to `*p` in the node heap of `m`. -/
def store (m : pool_mgr_t) (p : Option Nat) (f : node_t → node_t) : Option pool_mgr_t := do
  let heap ← m.node_heap.elems
  let i ← p
  let n ← heap[i]?
  pure { m with node_heap := Block.live (heap.set i (f n)) }

/-- Reads `gap_ix[i]`. -/
def load_gap (m : pool_mgr_t) (i : Nat) : Option gap_t := do
  let gaps ← m.gap_ix.elems
  gaps[i]?

/-- The function `_mem_resize_node_heap`: its body is `return ALLOC_FAIL`. -/
def _mem_resize_node_heap (m : pool_mgr_t) : pool_mgr_t × alloc_status :=
  (m, alloc_status.ALLOC_FAIL)

/-- The function `_mem_resize_gap_ix`: its body is `return ALLOC_FAIL`. -/
def _mem_resize_gap_ix (m : pool_mgr_t) : pool_mgr_t × alloc_status :=
  (m, alloc_status.ALLOC_FAIL)

/-- The function `_mem_add_to_gap_ix`: its body is `return ALLOC_FAIL`. -/
def _mem_add_to_gap_ix (m : pool_mgr_t) (_size : Nat) (_node : Option Nat) :
    pool_mgr_t × alloc_status :=
  (m, alloc_status.ALLOC_FAIL)

/-- The function `_mem_remove_from_gap_ix`: its body is `return ALLOC_FAIL`. -/
def _mem_remove_from_gap_ix (m : pool_mgr_t) (_size : Nat) (_node : Option Nat) :
    pool_mgr_t × alloc_status :=
  (m, alloc_status.ALLOC_FAIL)

/-- The first-fit loop of `mem_new_alloc`:
`while (newNode->alloc_record.size >= size || newNode->allocated == 1) newNode = newNode->next;`.
The loop writes nothing, so a walk that takes more steps than the heap has
nodes has come back to a node and never ends: the fuel is the heap length
plus one. -/
def first_fit_loop (m : pool_mgr_t) (size : Nat) : Nat → Option Nat → Option (Option Nat)
  | 0, _ => none
  | fuel + 1, newNode => do
    let n ← load m newNode
    if n.alloc_record.size ≥ size ∨ n.allocated = 1 then
      first_fit_loop m size fuel n.next
    else
      pure newNode

/-- The best-fit loop of `mem_new_alloc`: `i` runs up to `gap_ix_capacity`,
the first entry with `gap_ix[i].size >= size` gives its node.  Called with
`todo = gap_ix_capacity - i`. -/
def best_fit_loop (m : pool_mgr_t) (size : Nat) : Nat → Nat → Option (Option Nat)
  | 0, _ => some none
  | todo + 1, i => do
    let g ← load_gap m i
    if g.size ≥ size then pure g.node else best_fit_loop m size todo (i + 1)

/-- The loop of `mem_new_alloc` that looks for an unused slot: `i` runs up to
`total_nodes`, the first `i` with `node_heap[i].used == 0` is taken.  Called
with `todo = total_nodes - i`. -/
def unused_loop (m : pool_mgr_t) : Nat → Nat → Option (Option Nat)
  | 0, _ => some none
  | todo + 1, i => do
    let n ← load m (some i)
    if n.used = 0 then pure (some i) else unused_loop m todo (i + 1)

/-- The two statements `num_allocs++; alloc_size += size;`. -/
def bump_stats (abi : Abi) (m : pool_mgr_t) (size : Nat) : pool_mgr_t :=
  { m with pool := { m.pool with
      num_allocs := (m.pool.num_allocs + 1) % abi.umod,
      alloc_size := (m.pool.alloc_size + size) % abi.smod } }

/-- The function `mem_new_alloc`.  The result is the manager after the call
and the returned pointer. -/
def mem_new_alloc (abi : Abi) (m : pool_mgr_t) (size : Nat) :
    Option (pool_mgr_t × Option Nat) :=
  if m.pool.num_gaps = 0 then some (m, none) else
  let m := (_mem_resize_node_heap m).1
  (load m (some 0)).bind fun head =>
  if head.used ≤ m.total_nodes then some (m, none) else
  (match m.pool.policy with
    | alloc_policy.FIRST_FIT =>
        first_fit_loop m size ((m.node_heap.elems.getD []).length + 1) (some 0)
    | alloc_policy.BEST_FIT =>
        best_fit_loop m size m.gap_ix_capacity 0).bind fun newNode =>
  (load m newNode).bind fun cand =>
  if cand.alloc_record.size < size then some (m, none) else
  let m := bump_stats abi m size
  let reman_gap := cand.alloc_record.size - size
  let m := (_mem_remove_from_gap_ix m size newNode).1
  let m := bump_stats abi m size
  if reman_gap ≠ 0 then
    (unused_loop m m.total_nodes 0).bind fun node =>
    match node with
    | none => some (m, none)
    | some _ => do
      let m ← store m node fun n => { n with alloc_record := { n.alloc_record with size := reman_gap } }
      let c ← load m newNode
      let m ← store m node fun n =>
        { n with alloc_record := { n.alloc_record with mem := c.alloc_record.mem + size } }
      let m ← store m node fun n => { n with used := 1 }
      let m := { m with used_nodes := (m.used_nodes + 1) % abi.umod }
      let m ← store m node fun n => { n with prev := newNode }
      let c ← load m newNode
      let m ← store m node fun n => { n with next := c.next }
      let m := (_mem_add_to_gap_ix m reman_gap node).1
      if m.gap_ix ≠ Block.null then some (m, none) else some (m, newNode)
  else
    some (m, newNode)

/-- The search loop of `mem_del_alloc`: `while (&node_heap[i] != newNode) ++i;`.
Called with `todo` the number of array elements from `i` on; when `i` leaves
the array no element is left to compare with. -/
def find_loop (newNode : Option Nat) : Nat → Nat → Option Nat
  | 0, _ => none
  | todo + 1, i => if some i = newNode then some i else find_loop newNode todo (i + 1)

/-- The statement `used_nodes--`. -/
def drop_used (abi : Abi) (m : pool_mgr_t) : pool_mgr_t :=
  { m with used_nodes := (m.used_nodes + abi.umod - 1) % abi.umod }

/-- Lines 396 to 404 of `mem_del_alloc`: the list update at the end of the body
of `if (newNode->next == NULL)`. -/
def relink_next (m : pool_mgr_t) (newNode : Option Nat) : Option pool_mgr_t := do
  let n ← load m newNode
  let nx ← load m n.next
  let m ←
    if nx.next ≠ none then do
      let m ← store m nx.next fun x => { x with prev := newNode }
      let n ← load m newNode
      let nx ← load m n.next
      store m newNode fun x => { x with next := nx.next }
    else
      store m newNode fun x => { x with next := none }
  let n ← load m newNode
  let m ← store m n.next fun x => { x with next := none }
  let n ← load m newNode
  store m n.next fun x => { x with prev := none }

/-- Lines 380 to 404 of `mem_del_alloc`: the body of
`if (newNode->next == NULL)`. -/
def merge_next (abi : Abi) (m : pool_mgr_t) (newNode : Option Nat) : Option pool_mgr_t := do
  let n ← load m newNode
  let nx ← load m n.next
  let m := (_mem_remove_from_gap_ix m nx.alloc_record.size n.next).1
  let n ← load m newNode
  let m ← store m n.next fun x => { x with used := 0 }
  let n ← load m newNode
  let m ← store m n.next fun x => { x with alloc_record := { x.alloc_record with size := 0 } }
  let n ← load m newNode
  let m ← store m n.next fun x => { x with alloc_record := { x.alloc_record with mem := 0 } }
  let m := drop_used abi m
  relink_next m newNode

/-- Lines 410 to 443 of `mem_del_alloc`: the body of
`if (newNode->prev->allocated == 0)`. -/
def merge_prev (abi : Abi) (m : pool_mgr_t) (newNode : Option Nat) : Option pool_mgr_t := do
  let n ← load m newNode
  let prev_n := n.prev
  let p ← load m prev_n
  let m := (_mem_remove_from_gap_ix m p.alloc_record.size prev_n).1
  let n ← load m newNode
  let m ← store m prev_n fun x =>
    { x with alloc_record :=
        { x.alloc_record with size := (x.alloc_record.size + n.alloc_record.size) % abi.smod } }
  let m ← store m newNode fun x => { x with used := 0 }
  let m ← store m newNode fun x => { x with alloc_record := { x.alloc_record with size := 0 } }
  let m ← store m newNode fun x => { x with alloc_record := { x.alloc_record with mem := 0 } }
  let m := drop_used abi m
  let n ← load m newNode
  let m ←
    if n.next = none then do
      let m ← store m prev_n fun x => { x with next := n.next }
      let n ← load m newNode
      store m n.next fun x => { x with prev := prev_n }
    else
      store m prev_n fun x => { x with next := none }
  let m ← store m newNode fun x => { x with next := none }
  store m newNode fun x => { x with prev := none }

/-- The function `mem_del_alloc`.  The result is the manager after the call
and the returned status. -/
def mem_del_alloc (abi : Abi) (m : pool_mgr_t) (alloc : Option Nat) :
    Option (pool_mgr_t × alloc_status) :=
  let newNode := alloc
  (find_loop newNode (m.node_heap.elems.getD []).length 0).bind fun i =>
  (load m (some i)).bind fun a =>
  (load m newNode).bind fun b =>
  if a.alloc_record.size ≠ b.alloc_record.size then
    some (m, alloc_status.ALLOC_NOT_FREED)
  else
  (store m newNode fun x => { x with allocated := 0 }).bind fun m =>
  let m := { m with pool := { m.pool with
    num_allocs := (m.pool.num_allocs + abi.umod - 1) % abi.umod } }
  (load m newNode).bind fun n =>
  let m := { m with pool := { m.pool with
    alloc_size := (m.pool.alloc_size + abi.smod - n.alloc_record.size % abi.smod) % abi.smod } }
  (load m newNode).bind fun n =>
  (if n.next = none then merge_next abi m newNode else some m).bind fun m =>
  (load m newNode).bind fun n =>
  (load m n.prev).bind fun p =>
  if p.allocated = 0 then
    (merge_prev abi m newNode).bind fun m => some (m, alloc_status.ALLOC_OK)
  else
    some (m, alloc_status.ALLOC_OK)

/-- The static variables of `mem_pool.c` together with the pool managers and
the buffers that live on the C heap.  `pool_store` is `none` for `NULL` and
otherwise the array of slots; a slot is `none` for `NULL` or the address of a
manager.  The address of a manager is its index in `objs`; an entry of `objs`
is `none` once that manager has been released.  `bufs` holds the addresses of
the buffers that `calloc (1, size)` gave and that `free` has not released. -/
structure Registry where
  pool_store : Option (List (Option Nat))
  pool_store_size : Nat
  pool_store_capacity : Nat
  objs : List (Option pool_mgr_t)
  bufs : List Nat
deriving DecidableEq, Repr

/-- The state of the program at start: `pool_store = NULL`, both counters 0,
no manager, no buffer. -/
def Registry.start : Registry := ⟨none, 0, 0, [], []⟩

/-- Reads the manager `*p`. -/
def Registry.mgr (g : Registry) (p : Nat) : Option pool_mgr_t := (g.objs[p]?).join

/-- The function `mem_init`.  `calloc_ok` tells whether its `calloc` gives a
block. -/
def mem_init (calloc_ok : Bool) (g : Registry) : Registry × alloc_status :=
  if g.pool_store = none then
    ({ g with
        pool_store :=
          if calloc_ok then some (List.replicate MEM_POOL_STORE_INIT_CAPACITY none) else none,
        pool_store_size := 0,
        pool_store_capacity := MEM_POOL_STORE_INIT_CAPACITY },
      alloc_status.ALLOC_OK)
  else if g.pool_store ≠ none then
    (g, alloc_status.ALLOC_CALLED_AGAIN)
  else
    (g, alloc_status.ALLOC_FAIL)

/-- The results of the four `calloc` calls of `mem_pool_open`: whether the
manager, the node heap and the gap index were obtained, and the address of the
buffer (`0` for `NULL`). -/
structure Callocs where
  mgr : Bool
  mem : Nat
  node_heap : Bool
  gap_ix : Bool
deriving DecidableEq, Repr

/-- A pool manager as `calloc` returns it. -/
def mgr_zero : pool_mgr_t :=
  ⟨⟨0, alloc_policy.FIRST_FIT, 0, 0, 0, 0⟩, Block.null, 0, 0, Block.null, 0⟩

/-- The function `mem_pool_open`.  The result is the registry after the call
and the returned pointer. -/
def mem_pool_open (abi : Abi) (c : Callocs) (g : Registry) (size : Nat) (policy : alloc_policy) :
    Option (Registry × Option Nat) :=
  match g.pool_store with
  | none => some (g, none)
  | some slots =>
    if slots.length ≤ g.pool_store_size then none else
    if c.mgr = false then none else
    let p := g.objs.length
    let slots := slots.set g.pool_store_size (some p)
    let m : pool_mgr_t := { mgr_zero with pool := { mgr_zero.pool with mem := c.mem } }
    if c.mem = 0 then
      some ({ g with pool_store := some slots, objs := g.objs ++ [some m] }, none)
    else
    let bufs := c.mem :: g.bufs
    if c.node_heap = false then
      (free_buf bufs m.pool.mem).bind fun bufs =>
      some ({ g with pool_store := some slots, objs := g.objs ++ [some m], bufs := bufs }, none)
    else
    let m := { m with node_heap := Block.live [node_zero] }
    if c.gap_ix = false then
      let g := { g with pool_store := some slots, objs := g.objs ++ [some m], bufs := bufs }
      (slots[0]?).bind fun s0 => s0.bind fun q => (g.mgr q).bind fun m0 =>
      (free_buf g.bufs m0.pool.mem).bind fun bufs =>
      (m0.node_heap.free).bind fun heap =>
      some ({ g with objs := g.objs.set q (some { m0 with node_heap := heap }), bufs := bufs },
            none)
    else
    let m := { m with gap_ix := Block.live [gap_zero] }
    (store m (some 0) fun x =>
      { x with alloc_record := { x.alloc_record with mem := m.pool.mem } }).bind fun m =>
    (m.gap_ix.elems).bind fun gs =>
    let m := { m with gap_ix := Block.live (gs.set 0 { gap_zero with node := some 0 }) }
    (load_gap m 0).bind fun g0 =>
    (store m g0.node fun x =>
      { x with alloc_record := { x.alloc_record with size := size } }).bind fun m =>
    let m := { m with pool := { m.pool with
      policy := policy, total_size := size, alloc_size := 0,
      num_allocs := 0, num_gaps := 1 } }
    some ({ g with
              pool_store := some slots,
              pool_store_size := (g.pool_store_size + 1) % abi.umod,
              objs := g.objs ++ [some m],
              bufs := bufs },
          some p)

/-- The loop of `mem_pool_close` over the slots: the first slot that holds
`mangr` is set to `NULL`.  Called with `todo = pool_store_capacity - i`. -/
def close_loop (mangr : Nat) :
    Option (List (Option Nat)) → Nat → Nat → Option (Option (List (Option Nat)))
  | ps, 0, _ => some ps
  | ps, todo + 1, i => do
    let slots ← ps
    let s ← slots[i]?
    if s = some mangr then pure (some (slots.set i none))
    else close_loop mangr ps todo (i + 1)

/-- The function `mem_pool_close`.  The three `free` calls of lines 222 to 226
come before the loop; `free (mangr)` releases the manager. -/
def mem_pool_close (g : Registry) (pool : Option Nat) : Option (Registry × alloc_status) :=
  match pool with
  | none => some (g, alloc_status.ALLOC_NOT_FREED)
  | some p =>
    (g.mgr p).bind fun mangr =>
    if mangr.pool.num_gaps > 1 then some (g, alloc_status.ALLOC_NOT_FREED) else
    if mangr.pool.num_allocs > 0 then some (g, alloc_status.ALLOC_NOT_FREED) else
    (free_buf g.bufs mangr.pool.mem).bind fun bufs =>
    (mangr.node_heap.free).bind fun _ =>
    (mangr.gap_ix.free).bind fun _ =>
    (close_loop p g.pool_store g.pool_store_capacity 0).bind fun ps =>
    some ({ g with pool_store := ps, objs := g.objs.set p none, bufs := bufs },
          alloc_status.ALLOC_OK)

/-- Runs a function that takes the pool as a manager on the manager that the
pointer `pool` refers to, and writes the manager back. -/
def on_pool {α : Type} (g : Registry) (pool : Option Nat)
    (f : pool_mgr_t → Option (pool_mgr_t × α)) : Option (Registry × α) := do
  let p ← pool
  let m ← g.mgr p
  let r ← f m
  pure ({ g with objs := g.objs.set p (some r.1) }, r.2)

/-- The loop of `mem_free` over the slots: `true` when a slot with
`pool_store[i] != NULL` is met.  Called with `todo = pool_store_capacity - i`. -/
def free_loop (slots : List (Option Nat)) : Nat → Nat → Option Bool
  | 0, _ => some false
  | todo + 1, i => do
    let s ← slots[i]?
    if s ≠ none then pure true else free_loop slots todo (i + 1)

/-- The function `mem_free`. -/
def mem_free (g : Registry) : Option (Registry × alloc_status) :=
  match g.pool_store with
  | none => some (g, alloc_status.ALLOC_CALLED_AGAIN)
  | some slots =>
    (free_loop slots g.pool_store_capacity 0).bind fun held =>
    if held then some (g, alloc_status.ALLOC_FAIL)
    else
      some ({ g with pool_store := none, pool_store_capacity := 0, pool_store_size := 0 },
            alloc_status.ALLOC_OK)

/-- The record `pool_segment_t` of `mem_pool.h`, with the two members that
`mem_inspect_pool` writes. -/
structure pool_segment_t where
  size : Nat
  allocated : Nat
deriving DecidableEq, Repr

/-- The loop of `mem_inspect_pool`: `while (node != NULL)` writes `segment[i]`
and moves to `node->next`.  The array has `used_nodes` elements; `todo` is the
number of elements from `i` on, and a write with none left is outside the
array. -/
def inspect_loop (m : pool_mgr_t) :
    Nat → Option Nat → Nat → List pool_segment_t → Option (List pool_segment_t)
  | _, none, _, segment => some segment
  | 0, some _, _, _ => none
  | todo + 1, some k, i, segment => do
    let n ← load m (some k)
    inspect_loop m todo n.next (i + 1) (segment.set i ⟨n.alloc_record.size, n.allocated⟩)

/-- The function `mem_inspect_pool`.  `calloc_ok` tells whether
`calloc (used_nodes, ...)` gives a block (for `used_nodes = 0` C allows both).
The result is `some none` when the function returns without writing its
output parameters, and `some (some (segments, num_segments))` otherwise.  The
pool is only read.  The walk starts at the pointer `node_heap`: `NULL` when
`node_heap` is `NULL`, and `&node_heap[0]` otherwise. -/
def mem_inspect_pool (calloc_ok : Bool) (m : pool_mgr_t) :
    Option (Option (List pool_segment_t × Nat)) :=
  if calloc_ok = false then some none else
  let node : Option Nat :=
    match m.node_heap with
    | Block.null => none
    | _ => some 0
  (inspect_loop m m.used_nodes node 0 (List.replicate m.used_nodes ⟨0, 0⟩)).bind fun segment =>
  some (some (segment, m.used_nodes))

/-! ## Sequences of calls -/

/-- A call of the public interface. -/
inductive Call where
  | pool_open (c : Callocs) (size : Nat) (policy : alloc_policy)
  | pool_close (pool : Nat)
  | new_alloc (pool : Nat) (size : Nat)
  | del_alloc (pool : Nat) (node : Nat)
deriving DecidableEq, Repr

/-- The registry together with what the caller holds: the pools returned by
`mem_pool_open` and not closed, and the pairs (pool, node) returned by
`mem_new_alloc` and not yet passed to `mem_del_alloc`. -/
structure Session where
  g : Registry
  pools : List Nat
  allocs : List (Nat × Nat)
deriving DecidableEq, Repr

/-- The session after `mem_init`. -/
def Session.start (calloc_ok : Bool) : Session :=
  ⟨(mem_init calloc_ok Registry.start).1, [], []⟩

/-- One call.  A call on a pool that the caller does not hold, or a
`mem_del_alloc` on a node that the caller does not hold, is not made
(`none`), and so is a call without a defined result. -/
def step (abi : Abi) (s : Session) : Call → Option Session
  | Call.pool_open c size policy =>
    (mem_pool_open abi c s.g size policy).map fun r =>
      match r.2 with
      | none => { s with g := r.1 }
      | some p => { s with g := r.1, pools := s.pools ++ [p] }
  | Call.pool_close p =>
    if p ∈ s.pools then
      (mem_pool_close s.g (some p)).map fun r =>
        if r.2 = alloc_status.ALLOC_OK then
          ⟨r.1, s.pools.filter (fun q => q ≠ p), s.allocs.filter (fun a => a.1 ≠ p)⟩
        else { s with g := r.1 }
    else none
  | Call.new_alloc p size =>
    if p ∈ s.pools then
      (on_pool s.g (some p) fun m => mem_new_alloc abi m size).map fun r =>
        match r.2 with
        | none => { s with g := r.1 }
        | some h => { s with g := r.1, allocs := s.allocs ++ [(p, h)] }
    else none
  | Call.del_alloc p h =>
    if (p, h) ∈ s.allocs then
      (on_pool s.g (some p) fun m => mem_del_alloc abi m (some h)).map fun r =>
        if r.2 = alloc_status.ALLOC_OK then
          { s with g := r.1, allocs := s.allocs.filter (fun a => a ≠ (p, h)) }
        else { s with g := r.1 }
    else none

/-- The calls of a list, one after the other, from the session `s`. -/
def run_from (abi : Abi) (s : Session) (calls : List Call) : Option Session :=
  calls.foldlM (step abi) s

/-- The calls of a list after `mem_init`. -/
def run (abi : Abi) (calloc_ok : Bool) (calls : List Call) : Option Session :=
  run_from abi (Session.start calloc_ok) calls

/-- Every `calloc` of the call gives a block. -/
def Call.served : Call → Bool
  | Call.pool_open c _ _ => c.mgr && decide (c.mem ≠ 0) && c.node_heap && c.gap_ix
  | _ => true

/-- The calls `mem_new_alloc (pool, size)` for the sizes of a list, one after
the other on the same pool: the manager at the end and the pointers
returned. -/
def alloc_seq (abi : Abi) : pool_mgr_t → List Nat → Option (pool_mgr_t × List (Option Nat))
  | m, [] => some (m, [])
  | m, size :: rest =>
    (mem_new_alloc abi m size).bind fun r =>
    (alloc_seq abi r.1 rest).map fun q => (q.1, r.2 :: q.2)

/-- The nodes met from `p` along `next`; `none` when a pointer leaves the heap
or the walk is longer than `fuel` nodes. -/
def node_list (m : pool_mgr_t) : Nat → Option Nat → Option (List node_t)
  | _, none => some []
  | 0, some _ => none
  | fuel + 1, some k => do
    let n ← load m (some k)
    let rest ← node_list m fuel n.next
    pure (n :: rest)

/-- Each node starts where the one before it ends, the first one at `start`. -/
def contiguous (start : Nat) : List node_t → Bool
  | [] => true
  | n :: rest =>
    decide (n.alloc_record.mem = start) && contiguous (start + n.alloc_record.size) rest

/-- The node list from the head is a list of contiguous segments that starts at
the buffer and whose sizes add up to `total_size`. -/
def partition_ok (m : pool_mgr_t) : Bool :=
  match node_list m (m.node_heap.elems.getD []).length (some 0) with
  | none => false
  | some ns =>
    contiguous m.pool.mem ns &&
      decide ((ns.map fun n => n.alloc_record.size).sum = m.pool.total_size)

/-! ## Sample states -/

/-- The manager that a successful `mem_pool_open (size, policy)` builds when
the buffer is at address `mem`: one node with `used = 0`, `total_nodes = 0`,
one gap entry whose `size` member is still 0, `gap_ix_capacity = 0`. -/
def opened_mgr (mem size : Nat) (policy : alloc_policy) : pool_mgr_t :=
  ⟨⟨mem, policy, size, 0, 0, 1⟩, Block.live [⟨⟨mem, size⟩, 0, 0, none, none⟩], 0, 0,
    Block.live [⟨0, some 0⟩], 0⟩

/-- Every `calloc` of `mem_pool_open` gives a block; the buffer is at 4096. -/
def calloc_all : Callocs := ⟨true, 4096, true, true⟩

/-- The registry after `mem_init` and one `mem_pool_open` that stored `m`, whose
buffer is live. -/
def one_pool (m : pool_mgr_t) : Registry :=
  ⟨some (some 0 :: List.replicate 19 none), 1, 20, [some m], [m.pool.mem]⟩

/-- A best-fit pool of 8 bytes whose single node is a gap in use, with one gap
entry of size 8 within `gap_ix_capacity = 1`. -/
def gap_pool_8 : pool_mgr_t :=
  ⟨⟨4096, alloc_policy.BEST_FIT, 8, 0, 0, 1⟩, Block.live [⟨⟨4096, 8⟩, 1, 0, none, none⟩], 0, 1,
    Block.live [⟨8, some 0⟩], 1⟩

/-- Three nodes of sizes 10, 20, 30 linked in address order, with the given
`allocated` flags. -/
def three_nodes (a h b : Nat) : List node_t :=
  [⟨⟨4096, 10⟩, 1, a, some 1, none⟩, ⟨⟨4106, 20⟩, 1, h, some 2, some 0⟩,
    ⟨⟨4126, 30⟩, 1, b, none, some 1⟩]

/-- A pool of 60 bytes over `three_nodes a h b` with the given gap index and
counters. -/
def three_node_pool (a h b : Nat) (gaps : List gap_t) (alloc_size num_allocs num_gaps : Nat) :
    pool_mgr_t :=
  ⟨⟨4096, alloc_policy.FIRST_FIT, 60, alloc_size, num_allocs, num_gaps⟩,
    Block.live (three_nodes a h b), 3, 3, Block.live gaps, 1⟩

/-- Some node in use is free and its `next` node is free as well. -/
def has_adjacent_gaps (heap : List node_t) : Bool :=
  heap.any fun n =>
    decide (n.used ≠ 0) && decide (n.allocated = 0) &&
      (match n.next with
        | none => false
        | some j => (heap[j]?).any fun x => decide (x.allocated = 0))

/-- A first-fit pool of 110 bytes that passes the tests of lines 248 and 257
(`num_gaps = 2`, head `used = 1`, `total_nodes = 0`): two free nodes in use, of
100 bytes and then of 10 bytes. -/
def two_gap_pool : pool_mgr_t :=
  ⟨⟨4096, alloc_policy.FIRST_FIT, 110, 0, 0, 2⟩,
    Block.live [⟨⟨4096, 100⟩, 1, 0, some 1, none⟩, ⟨⟨4196, 10⟩, 1, 0, none, some 0⟩], 0, 2,
    Block.live [⟨10, some 1⟩, ⟨100, some 0⟩], 2⟩

/-- The call `mem_pool_open (1000, FIRST_FIT)` with every `calloc` served. -/
def open_1000 : Call := Call.pool_open calloc_all 1000 alloc_policy.FIRST_FIT

/-- The caller holds no node, and every pool that the caller holds is as
`mem_pool_open` built it. -/
def Session.pristine (s : Session) : Prop :=
  s.allocs = [] ∧
    ∀ p ∈ s.pools, ∃ (mem size : Nat) (policy : alloc_policy),
      s.g.mgr p = some (opened_mgr mem size policy)

/-- The call `mem_pool_open (64, BEST_FIT)` in which the `calloc` of the gap
index gives `NULL` (the buffer, at 8192, and the node heap are obtained). -/
def open_64_no_gap_ix : Call :=
  Call.pool_open ⟨true, 8192, true, false⟩ 64 alloc_policy.BEST_FIT

/-! ## Lemmas -/

theorem mem_pool_open_ok (abi : Abi) (c : Callocs) (g : Registry) (slots : List (Option Nat))
    (size : Nat) (policy : alloc_policy)
    (hstore : g.pool_store = some slots) (hsize : g.pool_store_size < slots.length)
    (hmgr : c.mgr = true) (hmem : c.mem ≠ 0) (hheap : c.node_heap = true)
    (hgap : c.gap_ix = true) :
    mem_pool_open abi c g size policy =
      some ({ g with
                pool_store := some (slots.set g.pool_store_size (some g.objs.length)),
                pool_store_size := (g.pool_store_size + 1) % abi.umod,
                objs := g.objs ++ [some (opened_mgr c.mem size policy)],
                bufs := c.mem :: g.bufs },
            some g.objs.length) := by
  unfold mem_pool_open
  simp [hstore, hmgr, hmem, hheap, hgap, Nat.not_le.mpr hsize, store, load_gap, mgr_zero,
    node_zero, gap_zero, opened_mgr, Block.elems]

theorem find_loop_hit (h : Nat) : ∀ (todo i : Nat), i ≤ h → h < i + todo →
    find_loop (some h) todo i = some h := by
  intro todo
  induction todo with
  | zero => intro i h1 h2; omega
  | succ k ih =>
    intro i h1 h2
    unfold find_loop
    by_cases hi : i = h
    · simp [hi]
    · have : ¬ (some i = some h) := by simpa using hi
      rw [if_neg this]
      exact ih (i + 1) (by omega) (by omega)

theorem load_heap (m : pool_mgr_t) (heap : List node_t) (i : Nat)
    (hheap : m.node_heap = Block.live heap) : load m (some i) = heap[i]? := by
  simp [load, hheap, Block.elems]

theorem load_mk (a : pool_t) (heap : List node_t) (tn un : Nat) (gi : Block gap_t)
    (gc i : Nat) : load ⟨a, Block.live heap, tn, un, gi, gc⟩ (some i) = heap[i]? := by
  simp [load, Block.elems]

theorem store_heap (m : pool_mgr_t) (heap : List node_t) (i : Nat) (n : node_t)
    (f : node_t → node_t) (hheap : m.node_heap = Block.live heap) (hn : heap[i]? = some n) :
    store m (some i) f = some { m with node_heap := Block.live (heap.set i (f n)) } := by
  simp [store, hheap, hn, Block.elems]

/-- On the path of `mem_del_alloc` that runs no merge block (the node has a
`next`, and its `prev` is another node of the heap with `allocated != 0`) the
call clears the `allocated` flag and decrements the two counters. -/
theorem mem_del_alloc_plain (abi : Abi) (m : pool_mgr_t) (heap : List node_t) (h p : Nat)
    (n pn : node_t)
    (hheap : m.node_heap = Block.live heap)
    (hn : heap[h]? = some n)
    (hnext : n.next ≠ none)
    (hprev : n.prev = some p) (hne : p ≠ h)
    (hp : heap[p]? = some pn) (hpa : pn.allocated ≠ 0) :
    mem_del_alloc abi m (some h) =
      some ({ m with
                node_heap := Block.live (heap.set h { n with allocated := 0 }),
                pool := { m.pool with
                  num_allocs := (m.pool.num_allocs + abi.umod - 1) % abi.umod,
                  alloc_size :=
                    (m.pool.alloc_size + abi.smod - n.alloc_record.size % abi.smod) % abi.smod } },
            alloc_status.ALLOC_OK) := by
  have hlt : h < heap.length := by
    rcases List.getElem?_eq_some.mp hn with ⟨hl, _⟩
    exact hl
  have hfind := find_loop_hit h heap.length 0 (Nat.zero_le _) (by omega)
  have hl0 : load m (some h) = some n := by rw [load_heap m heap h hheap, hn]
  have hs := store_heap m heap h n (fun x => { x with allocated := 0 }) hheap hn
  have hn1 : ∀ x : node_t, (heap.set h x)[h]? = some x := by
    intro x
    simp [List.getElem?_set, hlt]
  have hp1 : ∀ x : node_t, (heap.set h x)[p]? = some pn := by
    intro x
    rw [List.getElem?_set_ne (Ne.symm hne)]
    exact hp
  unfold mem_del_alloc
  simp only [hheap, Block.elems, Option.getD_some, hfind, Option.some_bind, hl0, ne_eq,
    not_true_eq_false, if_false, hs, load_mk, hn1, hnext, hprev, hp1, hpa]

theorem mem_pool_close_busy (g : Registry) (p : Nat) (m : pool_mgr_t)
    (hm : g.mgr p = some m) (h : 0 < m.pool.num_allocs) :
    mem_pool_close g (some p) = some (g, alloc_status.ALLOC_NOT_FREED) := by
  unfold mem_pool_close
  simp [hm]
  intro _ h0
  omega

/-! ## Claims C1 to C10 -/

/-- C1: the claim says that on a pool just returned by `mem_pool_open (S, policy)`
a request `0 < n < S` succeeds and splits the node.  At `S = 1000`, `n = 100`,
`FIRST_FIT` the code returns `NULL` and the pool keeps its single free node of
size 1000: the head node has `used = 0` and `total_nodes = 0`, so the test
`node_heap->used <= total_nodes` of line 257 holds. -/
theorem mem_new_alloc_on_opened_pool_returns_null :
    mem_pool_open lp64 calloc_all (mem_init true Registry.start).1 1000 alloc_policy.FIRST_FIT
        = some (one_pool (opened_mgr 4096 1000 alloc_policy.FIRST_FIT), some 0) ∧
    on_pool (one_pool (opened_mgr 4096 1000 alloc_policy.FIRST_FIT)) (some 0)
        (fun m => mem_new_alloc lp64 m 100)
        = some (one_pool (opened_mgr 4096 1000 alloc_policy.FIRST_FIT), none) ∧
    (opened_mgr 4096 1000 alloc_policy.FIRST_FIT).node_heap
        = Block.live [⟨⟨4096, 1000⟩, 0, 0, none, none⟩] := by
  decide

/-- C2: the claim says that a call of `mem_new_alloc` that returns a node adds 1
to `num_allocs` and `size` to `alloc_size` and marks the node allocated.  On
the best-fit pool `gap_pool_8` a request of 8 bytes returns node 0 with
`num_allocs` 0 to 2, `alloc_size` 0 to 16 and `allocated` still 0: lines 295,
296 and again 305, 306 update the counters, and no statement sets
`allocated`. -/
theorem mem_new_alloc_counts_twice :
    mem_new_alloc lp64 gap_pool_8 8 =
      some ({ gap_pool_8 with pool := { gap_pool_8.pool with num_allocs := 2, alloc_size := 16 } },
            some 0) ∧
    gap_pool_8.pool.num_allocs = 0 ∧ gap_pool_8.pool.alloc_size = 0 ∧
    (load gap_pool_8 (some 0)).map (fun n => n.allocated) = some 0 := by
  decide

/-- C3: the claim says that a call of `mem_new_alloc` that returns `NULL` leaves
the manager as it was.  On `gap_pool_8` a request of 5 bytes returns `NULL` at
line 322 (no unused slot for the remaining 3 bytes) after the counters were
updated: `num_allocs` is 2 and `alloc_size` is 10 afterwards. -/
theorem mem_new_alloc_null_after_update :
    mem_new_alloc lp64 gap_pool_8 5 =
      some ({ gap_pool_8 with pool := { gap_pool_8.pool with num_allocs := 2, alloc_size := 10 } },
            none) ∧
    ({ gap_pool_8 with pool := { gap_pool_8.pool with num_allocs := 2, alloc_size := 10 } } :
      pool_mgr_t) ≠ gap_pool_8 := by
  decide

/-- C4: the claim says that `h = mem_new_alloc (pool, n)` followed by
`mem_del_alloc (pool, h)` returns `ALLOC_OK` on a pool just opened.  At
`S = 64`, `n = 64`, `BEST_FIT` the allocation returns `NULL` (line 257), and
`mem_del_alloc (pool, NULL)` has no result: its search loop of line 359 finds
no element of the node heap at address `NULL`. -/
theorem alloc_then_del_on_opened_pool_has_no_result :
    mem_pool_open lp64 calloc_all (mem_init true Registry.start).1 64 alloc_policy.BEST_FIT
        = some (one_pool (opened_mgr 4096 64 alloc_policy.BEST_FIT), some 0) ∧
    on_pool (one_pool (opened_mgr 4096 64 alloc_policy.BEST_FIT)) (some 0)
        (fun m => mem_new_alloc lp64 m 64)
        = some (one_pool (opened_mgr 4096 64 alloc_policy.BEST_FIT), none) ∧
    on_pool (one_pool (opened_mgr 4096 64 alloc_policy.BEST_FIT)) (some 0)
        (fun m => mem_del_alloc lp64 m none) = none := by
  decide

/-- C5: on a registry whose table is allocated with `pool_store_capacity` slots
and `pool_store_size < pool_store_capacity`, when the four `calloc` calls give
blocks, `mem_pool_open (size, policy)` returns a pointer to a manager that did
not exist before and is stored in slot `pool_store_size`; its pool has the
given policy, `total_size = size`, `alloc_size = 0`, `num_allocs = 0`,
`num_gaps = 1`, and its head node is free, of size `size`, at the start of the
buffer, with `prev` and `next` both `NULL`.  When `pool_store` is `NULL` the
call returns `NULL`. -/
theorem mem_pool_open_registers_new_pool (abi : Abi) (c : Callocs) (g : Registry) (size : Nat)
    (policy : alloc_policy) :
    (g.pool_store = none → mem_pool_open abi c g size policy = some (g, none)) ∧
    (∀ slots : List (Option Nat), g.pool_store = some slots →
      slots.length = g.pool_store_capacity → g.pool_store_size < g.pool_store_capacity →
      c.mgr = true → c.mem ≠ 0 → c.node_heap = true → c.gap_ix = true →
      ∃ (g1 : Registry) (m : pool_mgr_t),
        mem_pool_open abi c g size policy = some (g1, some g.objs.length) ∧
        g.mgr g.objs.length = none ∧
        g1.mgr g.objs.length = some m ∧
        g1.pool_store = some (slots.set g.pool_store_size (some g.objs.length)) ∧
        m.pool.policy = policy ∧ m.pool.total_size = size ∧ m.pool.alloc_size = 0 ∧
        m.pool.num_allocs = 0 ∧ m.pool.num_gaps = 1 ∧
        load m (some 0) = some ⟨⟨m.pool.mem, size⟩, 0, 0, none, none⟩) := by
  constructor
  · intro hnull
    unfold mem_pool_open
    simp [hnull]
  · intro slots hstore hlen hsize hmgr hmem hheap hgap
    refine ⟨_, opened_mgr c.mem size policy,
      mem_pool_open_ok abi c g slots size policy hstore (by omega) hmgr hmem hheap hgap, ?_⟩
    simp [Registry.mgr, opened_mgr, load, Block.elems]

/-- C5, at `mem_pool_open (8, BEST_FIT)` before and after `mem_init`. -/
theorem mem_pool_open_registers_new_pool_witness :
    mem_pool_open lp64 calloc_all Registry.start 8 alloc_policy.BEST_FIT
        = some (Registry.start, none) ∧
    ∃ (g1 : Registry) (m : pool_mgr_t),
      mem_pool_open lp64 calloc_all (mem_init true Registry.start).1 8 alloc_policy.BEST_FIT
        = some (g1, some 0) ∧
      (mem_init true Registry.start).1.mgr 0 = none ∧
      g1.mgr 0 = some m ∧
      g1.pool_store = some ((List.replicate 20 none).set 0 (some 0)) ∧
      m.pool.policy = alloc_policy.BEST_FIT ∧ m.pool.total_size = 8 ∧ m.pool.alloc_size = 0 ∧
      m.pool.num_allocs = 0 ∧ m.pool.num_gaps = 1 ∧
      load m (some 0) = some ⟨⟨m.pool.mem, 8⟩, 0, 0, none, none⟩ :=
  ⟨(mem_pool_open_registers_new_pool lp64 calloc_all Registry.start 8
      alloc_policy.BEST_FIT).1 rfl,
   (mem_pool_open_registers_new_pool lp64 calloc_all (mem_init true Registry.start).1 8
      alloc_policy.BEST_FIT).2 (List.replicate 20 none) rfl rfl (by decide) rfl (by decide)
      rfl rfl⟩

/-- C6: the claim says that after `mem_del_alloc` no two adjacent nodes are both
free, a free successor having been merged into the node.  On the list
A (allocated, 10), H (allocated, 20), F (free, 30), which has no adjacent gaps,
`mem_del_alloc (pool, H)` returns `ALLOC_OK` and leaves H free with size 20
next to F free with size 30, F still in use: the merge block of line 378 is
guarded by `newNode->next == NULL`, so a successor that exists is never
merged. -/
theorem mem_del_alloc_leaves_adjacent_gaps :
    has_adjacent_gaps (three_nodes 1 1 0) = false ∧
    mem_del_alloc lp64 (three_node_pool 1 1 0 [⟨30, some 2⟩] 30 2 1) (some 1) =
      some (three_node_pool 1 0 0 [⟨30, some 2⟩] 10 1 1, alloc_status.ALLOC_OK) ∧
    has_adjacent_gaps (three_nodes 1 0 0) = true := by
  decide

/-- C7: the claim says that after `mem_del_alloc` of a node between two allocated
nodes the gap index holds one entry for that node and `num_gaps` is one
greater.  On the list A, H, B, all allocated, with `num_gaps = 0` and an empty
first gap entry, `mem_del_alloc (pool, H)` returns `ALLOC_OK` with the gap
index and `num_gaps = 0` as before: nothing follows the comment of line 445,
and `_mem_add_to_gap_ix` has no body. -/
theorem mem_del_alloc_adds_no_gap :
    mem_del_alloc lp64 (three_node_pool 1 1 1 [gap_zero] 60 3 0) (some 1) =
      some (three_node_pool 1 0 1 [gap_zero] 40 2 0, alloc_status.ALLOC_OK) ∧
    (three_node_pool 1 0 1 [gap_zero] 40 2 0).gap_ix = Block.live [gap_zero] ∧
    (three_node_pool 1 0 1 [gap_zero] 40 2 0).pool.num_gaps = 0 := by
  decide

/-- C8: let `h` be a node of the node heap that is allocated, has a successor
(`next` is not `NULL`) and whose predecessor `p` is another node of the heap
with `allocated != 0`.  Then `mem_del_alloc (pool, h)` returns `ALLOC_OK`; in
the manager afterwards node `h` has `allocated = 0` and is otherwise as before
(its size too), every other node is as before, `num_allocs` is the old value
minus 1 and `alloc_size` the old value minus the size of `h`, both modulo the
width of the counter, and all other members are unchanged. -/
theorem mem_del_alloc_clears_flag_and_counts (abi : Abi) (m : pool_mgr_t) (heap : List node_t)
    (h p : Nat) (n pn : node_t)
    (hheap : m.node_heap = Block.live heap)
    (hn : heap[h]? = some n) (_hallocated : n.allocated ≠ 0)
    (hnext : n.next ≠ none)
    (hprev : n.prev = some p) (hne : p ≠ h)
    (hp : heap[p]? = some pn) (hpa : pn.allocated ≠ 0) :
    mem_del_alloc abi m (some h) =
      some ({ m with
                node_heap := Block.live (heap.set h { n with allocated := 0 }),
                pool := { m.pool with
                  num_allocs := (m.pool.num_allocs + abi.umod - 1) % abi.umod,
                  alloc_size :=
                    (m.pool.alloc_size + abi.smod - n.alloc_record.size % abi.smod) % abi.smod } },
            alloc_status.ALLOC_OK) :=
  mem_del_alloc_plain abi m heap h p n pn hheap hn hnext hprev hne hp hpa

/-- C8, at the middle node of three allocated nodes with both counters at 0: the
counters wrap to `2 ^ 32 - 1` and `2 ^ 64 - 20`. -/
theorem mem_del_alloc_clears_flag_and_counts_witness :
    mem_del_alloc lp64 (three_node_pool 1 1 1 [] 0 0 0) (some 1) =
      some (three_node_pool 1 0 1 [] 18446744073709551596 4294967295 0,
            alloc_status.ALLOC_OK) :=
  mem_del_alloc_clears_flag_and_counts lp64 (three_node_pool 1 1 1 [] 0 0 0) (three_nodes 1 1 1)
    1 0 ⟨⟨4106, 20⟩, 1, 1, some 2, some 0⟩ ⟨⟨4096, 10⟩, 1, 1, some 1, none⟩
    rfl rfl (by decide) (by decide) rfl (by decide) rfl (by decide)

/-- C9: the claim says that `mem_del_alloc` on a node that is not allocated
returns a failure status and changes nothing.  On the list A (allocated),
H (free, 20), B (allocated) with `num_allocs = 2` and `alloc_size = 40`,
`mem_del_alloc (pool, H)` returns `ALLOC_OK` with `num_allocs = 1` and
`alloc_size = 20`: the only test, line 367, compares the size of the node with
itself. -/
theorem mem_del_alloc_accepts_free_node :
    (load (three_node_pool 1 0 1 [⟨20, some 1⟩] 40 2 1) (some 1)).map (fun n => n.allocated)
      = some 0 ∧
    mem_del_alloc lp64 (three_node_pool 1 0 1 [⟨20, some 1⟩] 40 2 1) (some 1) =
      some (three_node_pool 1 0 1 [⟨20, some 1⟩] 20 1 1, alloc_status.ALLOC_OK) := by
  decide

/-- C10: when `pool` points to a manager with `num_allocs > 0`, `mem_pool_close`
returns `ALLOC_NOT_FREED` and the registry state, with every slot and every
manager, is as before. -/
theorem mem_pool_close_with_allocs_not_freed (g : Registry) (p : Nat) (m : pool_mgr_t)
    (hm : g.mgr p = some m) (h : 0 < m.pool.num_allocs) :
    mem_pool_close g (some p) = some (g, alloc_status.ALLOC_NOT_FREED) :=
  mem_pool_close_busy g p m hm h

/-- C10, at a registry with one pool that holds three allocations. -/
theorem mem_pool_close_with_allocs_not_freed_witness :
    mem_pool_close (one_pool (three_node_pool 1 1 1 [gap_zero] 60 3 0)) (some 0) =
      some (one_pool (three_node_pool 1 1 1 [gap_zero] 60 3 0), alloc_status.ALLOC_NOT_FREED) :=
  mem_pool_close_with_allocs_not_freed (one_pool (three_node_pool 1 1 1 [gap_zero] 60 3 0)) 0
    (three_node_pool 1 1 1 [gap_zero] 60 3 0) rfl (by decide)

/-! ## Lemmas for C11 to C20 -/

theorem mem_new_alloc_opened (abi : Abi) (mem size : Nat) (policy : alloc_policy) (n : Nat) :
    mem_new_alloc abi (opened_mgr mem size policy) n = some (opened_mgr mem size policy, none) := by
  simp [mem_new_alloc, opened_mgr, _mem_resize_node_heap, load, Block.elems]

theorem mem_pool_open_returns (abi : Abi) (c : Callocs) (g g1 : Registry) (size : Nat)
    (policy : alloc_policy) (p : Nat)
    (h : mem_pool_open abi c g size policy = some (g1, some p)) :
    p = g.objs.length ∧ g1.objs = g.objs ++ [some (opened_mgr c.mem size policy)] := by
  cases hs : g.pool_store with
  | none => simp [mem_pool_open, hs] at h
  | some slots =>
    by_cases h1 : slots.length ≤ g.pool_store_size
    · simp [mem_pool_open, hs, h1] at h
    by_cases h2 : c.mgr = false
    · simp [mem_pool_open, hs, h1, h2] at h
    by_cases h3 : c.mem = 0
    · simp [mem_pool_open, hs, h1, h2, h3] at h
    by_cases h4 : c.node_heap = false
    · simp [mem_pool_open, hs, h1, h2, h3, h4, Option.bind_eq_some] at h
    by_cases h5 : c.gap_ix = false
    · simp [mem_pool_open, hs, h1, h2, h3, h4, h5, Option.bind_eq_some] at h
    rw [mem_pool_open_ok abi c g slots size policy hs (by omega) (by simpa using h2) h3
      (by simpa using h4) (by simpa using h5)] at h
    simp only [Option.some.injEq, Prod.mk.injEq] at h
    obtain ⟨h6, h7⟩ := h
    subst h6
    exact ⟨h7.symm, rfl⟩

theorem mgr_append_new (objs : List (Option pool_mgr_t)) (m : pool_mgr_t) (g : Registry)
    (h : g.objs = objs ++ [some m]) : g.mgr objs.length = some m := by
  simp [Registry.mgr, h]

theorem alloc_seq_opened (abi : Abi) (mem size : Nat) (policy : alloc_policy) :
    ∀ sizes : List Nat, alloc_seq abi (opened_mgr mem size policy) sizes =
      some (opened_mgr mem size policy, sizes.map fun _ => none) := by
  intro sizes
  induction sizes with
  | nil => rfl
  | cons n rest ih =>
    unfold alloc_seq
    rw [mem_new_alloc_opened]
    simp [ih]

theorem free_loop_clear (slots : List (Option Nat)) : ∀ (todo i : Nat),
    (∀ j, i ≤ j → j < i + todo → slots[j]? = some none) →
    free_loop slots todo i = some false := by
  intro todo
  induction todo with
  | zero => intro i _; rfl
  | succ t ih =>
    intro i h
    unfold free_loop
    have h0 := h i (Nat.le_refl _) (by omega)
    simp only [h0, bind, Option.bind, ne_eq, not_true_eq_false, if_false]
    exact ih (i + 1) (fun j h1 h2 => h j (by omega) (by omega))

theorem free_loop_held (slots : List (Option Nat)) (k p : Nat)
    (hk : slots[k]? = some (some p)) : ∀ (todo i : Nat), i ≤ k → k < i + todo →
    i + todo ≤ slots.length → free_loop slots todo i = some true := by
  intro todo
  induction todo with
  | zero => intro i h1 h2; omega
  | succ t ih =>
    intro i h1 h2 h3
    unfold free_loop
    have hlt : i < slots.length := by omega
    rw [List.getElem?_eq_getElem hlt]
    simp only [bind, Option.bind]
    by_cases hs : slots[i] = none
    · have hne : i ≠ k := by
        intro e
        subst e
        rw [List.getElem?_eq_getElem hlt] at hk
        simp [hs] at hk
      simp only [hs, ne_eq, not_true_eq_false, if_false]
      exact ih (i + 1) (by omega) (by omega) (by omega)
    · simp [hs]

theorem served_open (c : Callocs) (size : Nat) (policy : alloc_policy)
    (h : (Call.pool_open c size policy).served = true) :
    c.mgr = true ∧ c.mem ≠ 0 ∧ c.node_heap = true ∧ c.gap_ix = true := by
  simpa [Call.served, and_assoc] using h

theorem mem_pool_open_null_served (abi : Abi) (c : Callocs) (g g1 : Registry) (size : Nat)
    (policy : alloc_policy) (hc : c.mgr = true ∧ c.mem ≠ 0 ∧ c.node_heap = true ∧ c.gap_ix = true)
    (h : mem_pool_open abi c g size policy = some (g1, none)) : g1 = g := by
  cases hs : g.pool_store with
  | none =>
    simp [mem_pool_open, hs] at h
    exact h.symm
  | some slots =>
    by_cases hlt : g.pool_store_size < slots.length
    · rw [mem_pool_open_ok abi c g slots size policy hs hlt hc.1 hc.2.1 hc.2.2.1 hc.2.2.2] at h
      simp at h
    · simp [mem_pool_open, hs, Nat.le_of_not_lt hlt] at h

theorem mem_pool_close_objs (g g1 : Registry) (p : Nat) (st : alloc_status)
    (h : mem_pool_close g (some p) = some (g1, st)) :
    (st = alloc_status.ALLOC_NOT_FREED ∧ g1 = g) ∨
      (st = alloc_status.ALLOC_OK ∧ g1.objs = g.objs.set p none) := by
  unfold mem_pool_close at h
  simp only [Option.bind_eq_some] at h
  obtain ⟨m, _, h⟩ := h
  split_ifs at h
  · simp at h
    exact Or.inl ⟨h.2.symm, h.1.symm⟩
  · simp at h
    exact Or.inl ⟨h.2.symm, h.1.symm⟩
  · simp only [Option.bind_eq_some] at h
    obtain ⟨bufs, _, heap, _, gaps, _, ps, _, h⟩ := h
    simp at h
    obtain ⟨h1, h2⟩ := h
    subst h1
    exact Or.inr ⟨h2.symm, rfl⟩

theorem mgr_set_ne (g : Registry) (p q : Nat)
    (x : Option pool_mgr_t) (g1 : Registry) (h : g1.objs = g.objs.set p x) (hne : q ≠ p) :
    g1.mgr q = g.mgr q := by
  simp [Registry.mgr, h, List.getElem?_set_ne (Ne.symm hne)]

theorem mgr_lt (g : Registry) (p : Nat) (m : pool_mgr_t) (h : g.mgr p = some m) :
    p < g.objs.length := by
  unfold Registry.mgr at h
  by_contra hge
  rw [List.getElem?_eq_none (Nat.le_of_not_lt hge)] at h
  simp at h

theorem mgr_append_old (g g1 : Registry) (x : Option pool_mgr_t) (p : Nat) (m : pool_mgr_t)
    (h : g1.objs = g.objs ++ [x]) (hm : g.mgr p = some m) : g1.mgr p = some m := by
  have hlt := mgr_lt g p m hm
  unfold Registry.mgr at hm ⊢
  rw [h, List.getElem?_append_left hlt]
  exact hm

theorem on_pool_opened (abi : Abi) (g g1 : Registry) (p size : Nat) (r : Option Nat)
    (mem sz : Nat) (policy : alloc_policy)
    (hm : g.mgr p = some (opened_mgr mem sz policy))
    (h : on_pool g (some p) (fun m => mem_new_alloc abi m size) = some (g1, r)) :
    r = none ∧ ∀ q, g1.mgr q = g.mgr q := by
  unfold on_pool at h
  simp only [bind, Option.bind, hm, mem_new_alloc_opened, pure] at h
  simp only [Option.some.injEq, Prod.mk.injEq] at h
  obtain ⟨h1, h2⟩ := h
  subst h1
  refine ⟨h2.symm, fun q => ?_⟩
  by_cases hq : q = p
  · subst hq
    have hlt := mgr_lt g q _ hm
    have hm1 := hm
    unfold Registry.mgr at hm1
    rw [List.getElem?_eq_getElem hlt] at hm1
    simp only [Option.join, Option.some_bind, id] at hm1
    simp [Registry.mgr, hlt, hm1]
  · simp [Registry.mgr, List.getElem?_set_ne (Ne.symm hq)]

theorem step_pristine (abi : Abi) (s s1 : Session) (call : Call) (hs : s.pristine)
    (hc : call.served = true) (h : step abi s call = some s1) : s1.pristine := by
  obtain ⟨hallocs, hpools⟩ := hs
  cases call with
  | pool_open c size policy =>
    have hc1 := served_open c size policy hc
    simp only [step, Option.map_eq_some'] at h
    obtain ⟨⟨g1, r⟩, hopen, hs1⟩ := h
    cases r with
    | none =>
      have hg := mem_pool_open_null_served abi c s.g g1 size policy hc1 hopen
      subst hs1
      subst hg
      exact ⟨hallocs, hpools⟩
    | some p =>
      obtain ⟨hp, hobjs⟩ := mem_pool_open_returns abi c s.g g1 size policy p hopen
      subst hs1
      refine ⟨hallocs, ?_⟩
      intro q hq
      simp only [List.mem_append, List.mem_singleton] at hq
      rcases hq with hq | hq
      · obtain ⟨mem, sz, pol, hm⟩ := hpools q hq
        exact ⟨mem, sz, pol, mgr_append_old s.g g1 _ q _ hobjs hm⟩
      · subst hq
        subst hp
        exact ⟨c.mem, size, policy, mgr_append_new s.g.objs _ g1 hobjs⟩
  | pool_close p =>
    simp only [step] at h
    split_ifs at h with hmem
    simp only [Option.map_eq_some'] at h
    obtain ⟨⟨g1, st⟩, hclose, hs1⟩ := h
    rcases mem_pool_close_objs s.g g1 p st hclose with ⟨hst, hg⟩ | ⟨hst, hobjs⟩
    · subst hst
      subst hg
      simp at hs1
      subst hs1
      exact ⟨hallocs, hpools⟩
    · subst hst
      simp at hs1
      subst hs1
      refine ⟨by simp [hallocs], ?_⟩
      intro q hq
      simp only [List.mem_filter] at hq
      obtain ⟨mem, sz, pol, hm⟩ := hpools q hq.1
      exact ⟨mem, sz, pol, by rw [mgr_set_ne s.g p q none g1 hobjs (by simpa using hq.2)]; exact hm⟩
  | new_alloc p size =>
    simp only [step] at h
    split_ifs at h with hmem
    simp only [Option.map_eq_some'] at h
    obtain ⟨⟨g1, r⟩, hcall, hs1⟩ := h
    obtain ⟨mem, sz, pol, hm⟩ := hpools p hmem
    obtain ⟨hr, hsame⟩ := on_pool_opened abi s.g g1 p size r mem sz pol hm hcall
    subst hr
    subst hs1
    refine ⟨hallocs, ?_⟩
    intro q hq
    obtain ⟨mem1, sz1, pol1, hm1⟩ := hpools q hq
    exact ⟨mem1, sz1, pol1, by rw [hsame q]; exact hm1⟩
  | del_alloc p h1 =>
    simp only [step] at h
    split_ifs at h with hmem
    rw [hallocs] at hmem
    simp at hmem

theorem run_from_pristine (abi : Abi) : ∀ (calls : List Call) (s s1 : Session), s.pristine →
    (∀ c ∈ calls, c.served = true) → run_from abi s calls = some s1 → s1.pristine := by
  intro calls
  induction calls with
  | nil =>
    intro s s1 hs _ h
    simp [run_from] at h
    subst h
    exact hs
  | cons c rest ih =>
    intro s s1 hs hc h
    simp only [run_from, List.foldlM_cons, bind, Option.bind_eq_some] at h
    obtain ⟨s2, h2, h3⟩ := h
    exact ih s2 s1 (step_pristine abi s s2 c hs (hc c (List.mem_cons_self _ _)) h2)
      (fun c1 hc1 => hc c1 (List.mem_cons_of_mem _ hc1)) h3

theorem partition_ok_opened (mem size : Nat) (policy : alloc_policy) :
    partition_ok (opened_mgr mem size policy) = true := by
  simp [partition_ok, opened_mgr, node_list, load, contiguous, Block.elems]

theorem close_loop_first (p k : Nat) (slots : List (Option Nat))
    (hk : slots[k]? = some (some p)) :
    ∀ (todo i : Nat), i ≤ k → k < i + todo →
      (∀ j, i ≤ j → j < k → slots[j]? ≠ some (some p)) →
      close_loop p (some slots) todo i = some (some (slots.set k none)) := by
  have hklt : k < slots.length := (List.getElem?_eq_some.mp hk).1
  intro todo
  induction todo with
  | zero => intro i h1 h2; omega
  | succ t ih =>
    intro i h1 h2 h3
    unfold close_loop
    have hlt : i < slots.length := by omega
    simp only [bind, Option.bind, List.getElem?_eq_getElem hlt, pure]
    by_cases hik : i = k
    · subst hik
      rw [List.getElem?_eq_getElem hlt] at hk
      simp only [Option.some.injEq] at hk
      simp [hk]
    · have hne : slots[i] ≠ some p := by
        intro e
        apply h3 i (Nat.le_refl _) (by omega)
        rw [List.getElem?_eq_getElem hlt, e]
      rw [if_neg hne]
      exact ih (i + 1) (by omega) (by omega) (fun j h4 h5 => h3 j (by omega) h5)

/-- On a manager with `num_allocs = 0` and `num_gaps <= 1` whose buffer, node
heap and gap index can be passed to `free`, and that slot `i` is the first to
hold, `mem_pool_close` returns `ALLOC_OK`, sets slot `i` to `NULL` and releases
the manager and its buffer. -/
theorem mem_pool_close_registered (g : Registry) (p i : Nat) (m : pool_mgr_t)
    (slots : List (Option Nat)) (bufs : List Nat)
    (hs : g.pool_store = some slots) (hlen : slots.length = g.pool_store_capacity)
    (hm : g.mgr p = some m) (hallocs : m.pool.num_allocs = 0) (hgaps : m.pool.num_gaps ≤ 1)
    (hbuf : free_buf g.bufs m.pool.mem = some bufs)
    (hheap : m.node_heap ≠ Block.released) (hgap : m.gap_ix ≠ Block.released)
    (hi : slots[i]? = some (some p)) (hfirst : ∀ j, j < i → slots[j]? ≠ some (some p)) :
    mem_pool_close g (some p) =
      some ({ g with
                pool_store := some (slots.set i none), objs := g.objs.set p none, bufs := bufs },
            alloc_status.ALLOC_OK) := by
  have hilt : i < slots.length := (List.getElem?_eq_some.mp hi).1
  have hloop := close_loop_first p i slots hi g.pool_store_capacity 0 (Nat.zero_le _) (by omega)
    (fun j _ h => hfirst j h)
  obtain ⟨b1, hb1⟩ : ∃ b, m.node_heap.free = some b := by
    cases hh : m.node_heap with
    | null => exact ⟨_, rfl⟩
    | released => exact absurd hh hheap
    | live xs => exact ⟨_, rfl⟩
  obtain ⟨b2, hb2⟩ : ∃ b, m.gap_ix.free = some b := by
    cases hh : m.gap_ix with
    | null => exact ⟨_, rfl⟩
    | released => exact absurd hh hgap
    | live xs => exact ⟨_, rfl⟩
  unfold mem_pool_close
  simp only [hm, Option.some_bind, hs, hloop, hallocs, hbuf, hb1, hb2]
  rw [if_neg (by omega), if_neg (by omega)]

/-! ## Claims C11 to C20 -/

/-- C11: the claim says that `mem_pool_close` returns `ALLOC_NOT_FREED` for every
pool with `num_gaps != 1`, `num_gaps == 0` included.  On a registry whose only
pool has `num_gaps = 0` and `num_allocs = 0` the call returns `ALLOC_OK`,
clears the slot and releases the manager: the test of line 212, under the
comment "check if pool has only one gap", is `num_gaps > 1`. -/
theorem mem_pool_close_accepts_zero_gaps :
    ({ opened_mgr 4096 1000 alloc_policy.FIRST_FIT with
        pool := ⟨4096, alloc_policy.FIRST_FIT, 1000, 0, 0, 0⟩ } : pool_mgr_t).pool.num_gaps = 0 ∧
    mem_pool_close
        (one_pool { opened_mgr 4096 1000 alloc_policy.FIRST_FIT with
          pool := ⟨4096, alloc_policy.FIRST_FIT, 1000, 0, 0, 0⟩ }) (some 0) =
      some (⟨some (List.replicate 20 none), 1, 20, [none], []⟩, alloc_status.ALLOC_OK) := by
  decide

/-- C14: the claim says that every `mem_pool_open` stores its manager below the
capacity of the table, which grows and reuses slots, so that more than 20 pools
can be open.  After `mem_init`, 20 calls of `mem_pool_open` bring
`pool_store_size` to the capacity 20, and the 21st call has no defined result:
it writes `pool_store[20]`.  The same holds when every pool is closed before the
next one is opened: `pool_store_size` only grows, no slot is reused, and
`mem_pool_open` does not call `_mem_resize_pool_store`. -/
theorem mem_pool_open_21st_call_leaves_table :
    (run lp64 true (List.replicate 20 open_1000)).map
        (fun s => (s.g.pool_store_size, s.g.pool_store_capacity, s.pools.length))
      = some (20, 20, 20) ∧
    run lp64 true (List.replicate 21 open_1000) = none ∧
    ((run lp64 true ((List.range 20).flatMap fun i => [open_1000, Call.pool_close i])).map
        fun s => (s.g.pool_store_size, s.g.pool_store_capacity, s.pools.length))
      = some (20, 20, 0) ∧
    run lp64 true (((List.range 20).flatMap fun i => [open_1000, Call.pool_close i])
        ++ [open_1000]) = none := by
  decide

/-- C15: the claim says that for a pool just returned by `mem_pool_open (S, policy)`
`mem_inspect_pool` reports one segment `{size = S, allocated = 0}`.  On that
pool `used_nodes` is 0 (`mem_pool_open` does not set it), so the array has no
element: when `calloc (0, ...)` gives a block the first pass of the loop writes
`segment[0]` outside of it, and when it gives `NULL` the function returns
without a report. -/
theorem mem_inspect_pool_on_opened_pool :
    (opened_mgr 4096 1000 alloc_policy.FIRST_FIT).used_nodes = 0 ∧
    mem_inspect_pool true (opened_mgr 4096 1000 alloc_policy.FIRST_FIT) = none ∧
    mem_inspect_pool false (opened_mgr 4096 1000 alloc_policy.FIRST_FIT) = some none := by
  decide

/-- C17: the claim says that from the state right after `mem_pool_open` on the gap
index holds `num_gaps` entries within `gap_ix_capacity`, each with the size of
its node.  Right after `mem_pool_open (1000, FIRST_FIT)` the pool has
`num_gaps = 1` and `gap_ix_capacity = 0`, and its one entry has `size = 0`
whereas its node has size 1000: line 185 writes the size through
`gap_ix->node`, and `gap_ix->size` and `gap_ix_capacity` are never written. -/
theorem mem_pool_open_gap_index_state :
    (run lp64 true [open_1000]).map (fun s => (s.pools, s.g.mgr 0))
      = some ([0], some (opened_mgr 4096 1000 alloc_policy.FIRST_FIT)) ∧
    (opened_mgr 4096 1000 alloc_policy.FIRST_FIT).pool.num_gaps = 1 ∧
    (opened_mgr 4096 1000 alloc_policy.FIRST_FIT).gap_ix_capacity = 0 ∧
    load_gap (opened_mgr 4096 1000 alloc_policy.FIRST_FIT) 0 = some ⟨0, some 0⟩ ∧
    (load (opened_mgr 4096 1000 alloc_policy.FIRST_FIT) (some 0)).map
        (fun n => (n.allocated, n.alloc_record.size)) = some (0, 1000) := by
  decide

/-- C18: the claim says that the first-fit search chooses the first free node with
`size >= requested` and that without such a node the call returns `NULL`
without reading past the tail.  On `two_gap_pool` (free 100, then free 10) a
request of 50 bytes makes the search stop at the node of 10 bytes, and the
call returns `NULL` although the head fits; a request of 5 bytes, which both
nodes fit, walks through `next` past the tail and has no defined result.  The
loop of line 269 goes on while `size >= requested`. -/
theorem first_fit_search_skips_fitting_nodes :
    first_fit_loop two_gap_pool 50 3 (some 0) = some (some 1) ∧
    mem_new_alloc lp64 two_gap_pool 50 = some (two_gap_pool, none) ∧
    first_fit_loop two_gap_pool 5 3 (some 0) = none ∧
    mem_new_alloc lp64 two_gap_pool 5 = none := by
  decide

/-- C19: the claim says that the best-fit call returns `NULL` when no gap entry is
large enough.  On `gap_pool_8`, whose one entry has size 8, a request of 9
bytes leaves `newNode` at `NULL` after the loop, and the test of line 289 reads
`newNode->alloc_record.size`: the call has no defined result. -/
theorem best_fit_without_fit_reads_null :
    best_fit_loop gap_pool_8 9 gap_pool_8.gap_ix_capacity 0 = some none ∧
    mem_new_alloc lp64 gap_pool_8 9 = none := by
  decide

/-- C13: `mem_free` returns `ALLOC_CALLED_AGAIN` and changes nothing when
`pool_store` is `NULL`; on a table of `pool_store_capacity` slots it returns
`ALLOC_FAIL` and changes nothing when some slot holds a manager, and otherwise
returns `ALLOC_OK` and leaves `pool_store = NULL`, `pool_store_size = 0`,
`pool_store_capacity = 0`, after which `mem_init` returns `ALLOC_OK`; and
`mem_init` on a registry whose `pool_store` is not `NULL` returns
`ALLOC_CALLED_AGAIN` and changes nothing. -/
theorem mem_free_cases (g : Registry) :
    (g.pool_store = none → mem_free g = some (g, alloc_status.ALLOC_CALLED_AGAIN)) ∧
    (∀ slots : List (Option Nat), g.pool_store = some slots →
      slots.length = g.pool_store_capacity →
      (∃ (i p : Nat), slots[i]? = some (some p)) →
      mem_free g = some (g, alloc_status.ALLOC_FAIL)) ∧
    (∀ slots : List (Option Nat), g.pool_store = some slots →
      slots.length = g.pool_store_capacity →
      (∀ i, i < slots.length → slots[i]? = some none) →
      mem_free g = some (⟨none, 0, 0, g.objs, g.bufs⟩, alloc_status.ALLOC_OK) ∧
      ∀ ok : Bool, (mem_init ok ⟨none, 0, 0, g.objs, g.bufs⟩).2 = alloc_status.ALLOC_OK) ∧
    (g.pool_store ≠ none → ∀ ok : Bool, mem_init ok g = (g, alloc_status.ALLOC_CALLED_AGAIN)) := by
  refine ⟨?_, ?_, ?_, ?_⟩
  · intro h
    simp [mem_free, h]
  · intro slots hs hlen ⟨i, p, hi⟩
    have hi1 : i < slots.length := (List.getElem?_eq_some.mp hi).1
    have := free_loop_held slots i p hi g.pool_store_capacity 0 (Nat.zero_le _) (by omega)
      (by omega)
    simp [mem_free, hs, this]
  · intro slots hs hlen hall
    have := free_loop_clear slots g.pool_store_capacity 0
      (fun j _ h2 => hall j (by omega))
    constructor
    · simp [mem_free, hs, this]
    · intro ok
      simp [mem_init]
  · intro h ok
    simp [mem_init, h]

/-- C13, at the start state, at a registry with one pool, and after `mem_init`. -/
theorem mem_free_cases_witness :
    mem_free Registry.start = some (Registry.start, alloc_status.ALLOC_CALLED_AGAIN) ∧
    mem_free (one_pool gap_pool_8) = some (one_pool gap_pool_8, alloc_status.ALLOC_FAIL) ∧
    (mem_free (mem_init true Registry.start).1
        = some (⟨none, 0, 0, [], []⟩, alloc_status.ALLOC_OK) ∧
      ∀ ok : Bool, (mem_init ok ⟨none, 0, 0, [], []⟩).2 = alloc_status.ALLOC_OK) ∧
    ∀ ok : Bool, mem_init ok (one_pool gap_pool_8)
      = (one_pool gap_pool_8, alloc_status.ALLOC_CALLED_AGAIN) :=
  ⟨(mem_free_cases Registry.start).1 rfl,
   (mem_free_cases (one_pool gap_pool_8)).2.1 _ rfl rfl ⟨0, 0, rfl⟩,
   (mem_free_cases (mem_init true Registry.start).1).2.2.1 (List.replicate 20 none) rfl rfl
     (by decide),
   (mem_free_cases (one_pool gap_pool_8)).2.2.2 (by decide)⟩

/-- C20: when `mem_pool_open` returns a pool, the manager it points to has
`total_nodes = 0` and a head node with `used = 0`, `_mem_resize_node_heap`
leaves it as it is, and every call `mem_new_alloc (pool, n)` returns `NULL`
with the manager unchanged; hence after any list of `mem_new_alloc` calls the
manager is still the same and every call has returned `NULL`. -/
theorem mem_new_alloc_after_open_always_null (abi : Abi) (c : Callocs) (g g1 : Registry)
    (size : Nat) (policy : alloc_policy) (p : Nat)
    (hopen : mem_pool_open abi c g size policy = some (g1, some p)) :
    ∃ m : pool_mgr_t, g1.mgr p = some m ∧
      m.total_nodes = 0 ∧ (load m (some 0)).map (fun n => n.used) = some 0 ∧
      (_mem_resize_node_heap m).1 = m ∧
      (∀ n : Nat, mem_new_alloc abi m n = some (m, none)) ∧
      (∀ sizes : List Nat, alloc_seq abi m sizes = some (m, sizes.map fun _ => none)) := by
  obtain ⟨hp, hobjs⟩ := mem_pool_open_returns abi c g g1 size policy p hopen
  subst hp
  refine ⟨opened_mgr c.mem size policy, mgr_append_new g.objs _ g1 hobjs, rfl, ?_, rfl,
    fun n => mem_new_alloc_opened abi c.mem size policy n,
    alloc_seq_opened abi c.mem size policy⟩
  simp [load, opened_mgr, Block.elems]

/-- C20, at `mem_pool_open (1000, FIRST_FIT)` after `mem_init`. -/
theorem mem_new_alloc_after_open_always_null_witness :
    ∃ m : pool_mgr_t, (one_pool (opened_mgr 4096 1000 alloc_policy.FIRST_FIT)).mgr 0 = some m ∧
      m.total_nodes = 0 ∧ (load m (some 0)).map (fun n => n.used) = some 0 ∧
      (_mem_resize_node_heap m).1 = m ∧
      (∀ n : Nat, mem_new_alloc lp64 m n = some (m, none)) ∧
      (∀ sizes : List Nat, alloc_seq lp64 m sizes = some (m, sizes.map fun _ => none)) :=
  mem_new_alloc_after_open_always_null lp64 calloc_all (mem_init true Registry.start).1
    (one_pool (opened_mgr 4096 1000 alloc_policy.FIRST_FIT)) 1000 alloc_policy.FIRST_FIT 0
    (by decide)

/-- C12: the claim says that `mem_pool_close` returns `ALLOC_OK` for every
registered manager with `num_allocs = 0` and `num_gaps = 1`.  After `mem_init`,
a `mem_pool_open` that returns pool 0 and a second `mem_pool_open` in which the
`calloc` of the gap index gives `NULL`, pool 0 is still held by slot 0 with
`num_allocs = 0` and `num_gaps = 1`, but its buffer (4096) and its node heap
have been released: lines 175 and 176 name `pool_store[0]` where line 167
names `pool_store[pool_store_size]`.  `mem_pool_close` on pool 0 then passes
the released buffer to `free` at line 222 and has no defined result. -/
theorem mem_pool_close_after_failed_open :
    (run lp64 true [open_1000, open_64_no_gap_ix]).map
        (fun s => (s.pools, s.g.pool_store.bind (fun slots : List (Option Nat) => slots[0]?)))
      = some ([0], some (some 0)) ∧
    (run lp64 true [open_1000, open_64_no_gap_ix]).map
        (fun s => (s.g.mgr 0).map (fun m => (m.pool.num_allocs, m.pool.num_gaps)))
      = some (some (0, 1)) ∧
    (run lp64 true [open_1000, open_64_no_gap_ix]).map
        (fun s => ((s.g.mgr 0).map (fun m => (m.pool.mem, m.node_heap)), s.g.bufs))
      = some (some (4096, Block.released), [8192]) ∧
    (run lp64 true [open_1000, open_64_no_gap_ix]).bind
        (fun s => mem_pool_close s.g (some 0)) = none ∧
    run lp64 true [open_1000, open_64_no_gap_ix, Call.pool_close 0] = none := by
  decide

/-- C16: the claim says that in every state reached by calls of `mem_pool_open`,
`mem_new_alloc`, `mem_del_alloc` and `mem_pool_close` the node list of every
open pool is a list of contiguous segments whose sizes add up to `total_size`.
After `mem_init` and one `mem_pool_open` the list of pool 0 is such a list; a
second `mem_pool_open` in which the `calloc` of the gap index gives `NULL`
releases the node heap of pool 0 (line 176 names `pool_store[0]`), so that
pool 0, still open, has no node list to walk any more. -/
theorem node_list_lost_after_failed_open :
    (run lp64 true [open_1000]).map (fun s => (s.pools, (s.g.mgr 0).map partition_ok))
      = some ([0], some true) ∧
    (run lp64 true [open_1000, open_64_no_gap_ix]).map
        (fun s => (s.pools,
          (s.g.mgr 0).map (fun m => (m.node_heap, load m (some 0), partition_ok m))))
      = some ([0], some (Block.released, none, false)) := by
  decide

end MemPool
